import Mathlib

/-!
Verification development for the perfdar symbolic-automata engine.

Each Rust type and function of the engine's core is embedded as a Lean
definition that mirrors the source structure by structure: pure functions
become Lean functions, methods that mutate `self` return the new value
alongside their result, fallible functions return a `RustResult` whose
`err` constructor is Rust's `Err` and whose `panicked` constructor marks a
call of `panic!` / `.unwrap()` on an error (or a provably diverging
recursion, where noted). Iteration order of Rust's hash containers is
unspecified; the embedding fixes it to insertion order, and no theorem
below depends on that choice beyond concrete runs.
-/

namespace Perfdar

/-- Outcome of a Rust function: a normal return, an `Err` return, or an
abort of the whole process via `panic!` (including `.unwrap()` of an
error and stack-overflowing recursion). -/
inductive RustResult (ε α : Type) where
  | ok (a : α)
  | err (e : ε)
  | panicked
deriving DecidableEq

/-- Mirrors `language/value.rs` `Value`: a boolean or an identifier
name, compared structurally (Rust derives `PartialEq`/`Eq`). -/
inductive Value where
  | Bool (b : Bool)
  | Identifier (name : String)
deriving DecidableEq

/-- Mirrors `language/expression.rs` `BinaryOperator`. -/
inductive BinaryOperator where
  | LogicalAnd
  | LogicalOr
  | Equal
  | NotEqual
  | Implication
  | BiImplication
deriving DecidableEq

/-- Mirrors `language/expression.rs` `UnaryOperator`. -/
inductive UnaryOperator where
  | Negation
deriving DecidableEq

/-- Mirrors `language/expression.rs` `Expression`: an owned tree of
literals, parenthesized expressions and binary/unary operators. -/
inductive Expression where
  | Literal (value : Value)
  | Parenthesized (expr : Expression)
  | Binary (lhs : Expression) (op : BinaryOperator) (rhs : Expression)
  | Unary (op : UnaryOperator) (expr : Expression)
deriving DecidableEq

/-- Mirrors `language/statement.rs` `Statement` (the source spells the
constructor `Assigment`). -/
inductive Statement where
  | Assigment (identifier : Expression) (value : Expression)
deriving DecidableEq

/-- Mirrors `language/evaluation.rs` `Evaluation`: the result of a
successful evaluation, a boolean or void. -/
inductive Evaluation where
  | Bool (b : Bool)
  | Void
deriving DecidableEq

/-- Abbreviation for the builtin boolean type, used in signatures living
inside a namespace that also declares a constructor named `Bool`. -/
abbrev Boolean := Bool

/-- Mirrors `Evaluation::is_false`. -/
def Evaluation.is_false : Evaluation → Boolean
  | .Bool value => value == false
  | _ => false

/-- Mirrors `Evaluation::is_true`. -/
def Evaluation.is_true : Evaluation → Boolean
  | .Bool value => value == true
  | _ => false

/-- Mirrors `language/error.rs` `Error`: runtime and type-checking
errors, each carrying a message. -/
inductive LangError where
  | RuntimeError (message : String)
  | TypeCheckingError (message : String)
deriving DecidableEq

/-- Mirrors `language/lang_type.rs` `LangType`. -/
inductive LangType where
  | Logical
  | Void
deriving DecidableEq

/-- Mirrors `language/environment.rs` `Environment`: an identifier-to-value
mapping. The Rust `HashMap` is embedded as an association list in insertion
order with unique keys; Rust's `HashMap` equality is order-insensitive and is
modelled separately by `Environment.rustEq`. -/
structure Environment where
  map : List (String × Value)
deriving DecidableEq

/-- Mirrors `Environment::new_empty`. -/
def Environment.new_empty : Environment := ⟨[]⟩

/-- Mirrors `Environment::is_empty`. -/
def Environment.is_empty (env : Environment) : Bool := env.map.isEmpty

/-- Mirrors `Environment::contains`. -/
def Environment.contains (env : Environment) (identifier : String) : Bool :=
  env.map.any (fun p => p.1 == identifier)

/-- Mirrors `Environment::get_value` (a `HashMap` holds one value per key;
the list keeps keys unique, so the first match is the binding). -/
def Environment.get_value (env : Environment) (identifier : String) : Option Value :=
  (env.map.find? (fun p => p.1 == identifier)).map (fun p => p.2)

/-- Mirrors `Environment::insert`: fails (returning `false` and leaving
the mapping unchanged) when the key already exists. The mutation of
`self` is returned as the second component. -/
def Environment.insert (env : Environment) (identifier : String) (value : Value) :
    Bool × Environment :=
  if env.contains identifier then (false, env)
  else (true, ⟨env.map ++ [(identifier, value)]⟩)

/-- Mirrors `Environment::set`: fails (returning `false` and adding no
binding) when the key is absent; otherwise replaces the binding. -/
def Environment.set (env : Environment) (identifier : String) (value : Value) :
    Bool × Environment :=
  if env.contains identifier then
    (true, ⟨env.map.map (fun p => if p.1 == identifier then (identifier, value) else p)⟩)
  else (false, env)

/-- Mirrors `Environment::is_disjoint`: no key of `env` appears in `other`. -/
def Environment.is_disjoint (env other : Environment) : Bool :=
  env.map.all (fun p => !(other.contains p.1))

/-- Mirrors `Environment::concat`: fails (returning `false` and leaving
the receiver unchanged) unless the two environments are key-disjoint;
on success extends the receiver with the other map's bindings. -/
def Environment.concat (env other : Environment) : Bool × Environment :=
  if env.is_disjoint other then (true, ⟨env.map ++ other.map⟩)
  else (false, env)

/-- Mirrors `Environment::count`. -/
def Environment.count (env : Environment) : Nat := env.map.length

/-- Rust `HashMap` equality (used by the derived `PartialEq` of `State`):
the two maps bind the same keys to the same values, regardless of
insertion order. -/
def Environment.rustEq (a b : Environment) : Bool :=
  a.map.all (fun p => b.get_value p.1 == some p.2) &&
    b.map.all (fun p => a.get_value p.1 == some p.2)

/-- Number of nodes of an expression: the exact number of worklist steps
the breadth-first traversals of `environment.rs` and `interpreter.rs`
perform on it, used as their fuel. -/
def exprWeight : Expression → Nat
  | .Literal _ => 1
  | .Parenthesized expr => 1 + exprWeight expr
  | .Binary lhs _ rhs => 1 + exprWeight lhs + exprWeight rhs
  | .Unary _ expr => 1 + exprWeight expr

/-- Total node count of a queue of expressions. -/
def exprQueueWeight (queue : List Expression) : Nat :=
  (queue.map exprWeight).sum

/-- The worklist loop of `Environment::missing_identifiers_in_expression`:
pops the front, records an undeclared identifier, and pushes children to
the back (breadth-first order). Each step consumes one node, so fuel equal
to the queue's node count never runs out; the `0` branch is unreachable and
returns the loop's base value. -/
def missingQueue (env : Environment) : Nat → List Expression → List String
  | 0, _ => []
  | _, [] => []
  | fuel + 1, e :: rest =>
    match e with
    | .Literal (Value.Bool _) => missingQueue env fuel rest
    | .Literal (Value.Identifier identifier) =>
      if env.contains identifier then missingQueue env fuel rest
      else identifier :: missingQueue env fuel rest
    | .Parenthesized expr => missingQueue env fuel (rest ++ [expr])
    | .Binary lhs _ rhs => missingQueue env fuel (rest ++ [lhs, rhs])
    | .Unary _ expr => missingQueue env fuel (rest ++ [expr])

/-- Mirrors `Environment::missing_identifiers_in_expression`. -/
def Environment.missing_identifiers_in_expression (env : Environment)
    (expression : Expression) : List String :=
  missingQueue env (exprWeight expression) [expression]

/-- Mirrors `Environment::missing_identifiers_in_statement`: the worklist
holds the single assignment, whose two expression parts are scanned in
order. -/
def Environment.missing_identifiers_in_statement (env : Environment) :
    Statement → List String
  | .Assigment identifier value =>
    env.missing_identifiers_in_expression identifier ++
      env.missing_identifiers_in_expression value

namespace Interpreter

/-- The final stack inspection of `Interpreter::eval_expression` (its last
lines): a stack longer than one is an error, a boolean on the stack is the
evaluation, an identifier is an error, and an empty stack yields `Void`. -/
def finishEval : RustResult LangError (List Value) → RustResult LangError Evaluation
  | .ok stack =>
    if stack.length > 1 then .err (.RuntimeError "More than one element on the stack")
    else
      match stack.head? with
      | some (Value.Bool value) => .ok (.Bool value)
      | some (Value.Identifier _) =>
        .err (.RuntimeError "An identifier cannot be an evaluation")
      | none => .ok .Void
  | .err e => .err e
  | .panicked => .panicked

/-- The worklist loop of `Interpreter::eval_expression`, returning the value
stack it leaves behind. The Rust worklist holds at most one entry at any
time — the loop starts with the single input expression and only the
`Parenthesized` arm pushes (one) replacement entry, while the `Binary` and
`Unary` arms evaluate their operands through recursive `eval_expression`
calls — so the loop is this recursion, and each arm pushes exactly one value
onto the stack. `Binary`/`Unary` unwrap the recursive results with
`.ok().unwrap()`, so an operand error aborts the process (`panicked`), and
the `Into<bool>` conversion of a `Void` operand evaluation panics too. The
`Negation` arm mirrors the source exactly: it rebuilds `Value::Bool` from
the operand's boolean unchanged. -/
def evalLoop (env : Environment) : Expression → RustResult LangError (List Value)
  | .Literal literal =>
    match literal with
    | .Identifier ident =>
      match env.get_value ident with
      | some value => .ok [value]
      | none => .err (.RuntimeError "Unknown identifier")
    | .Bool b => .ok [.Bool b]
  | .Parenthesized expr => evalLoop env expr
  | .Binary lhs op rhs =>
    match finishEval (evalLoop env lhs) with
    | .ok lhs_evaluation =>
      match finishEval (evalLoop env rhs) with
      | .ok rhs_evaluation =>
        match lhs_evaluation, rhs_evaluation with
        | .Bool lhs_bool, .Bool rhs_bool =>
          match op with
          | .LogicalAnd => .ok [.Bool (lhs_bool && rhs_bool)]
          | .LogicalOr => .ok [.Bool (lhs_bool || rhs_bool)]
          | .Equal => .ok [.Bool (lhs_bool == rhs_bool)]
          | .BiImplication => .ok [.Bool (lhs_bool == rhs_bool)]
          | .NotEqual => .ok [.Bool (lhs_bool != rhs_bool)]
          | .Implication => .ok [.Bool (!lhs_bool || rhs_bool)]
        | _, _ => .panicked
      | _ => .panicked
    | _ => .panicked
  | .Unary op expr =>
    match finishEval (evalLoop env expr) with
    | .ok expr_evaluation =>
      match op with
      | .Negation =>
        match expr_evaluation with
        | .Bool expr_bool => .ok [.Bool expr_bool]
        | .Void => .panicked
    | _ => .panicked

/-- Mirrors `Interpreter::eval_expression` (`language/interpreter.rs`):
the worklist loop followed by the final stack inspection. -/
def eval_expression (env : Environment) (expression : Expression) :
    RustResult LangError Evaluation :=
  finishEval (evalLoop env expression)

/-- Mirrors `Interpreter::eval_expression_identifier`. -/
def eval_expression_identifier : Expression → RustResult LangError String
  | .Literal (.Bool _) => .err (.RuntimeError "Boolean is not an identifier")
  | .Literal (.Identifier ident) => .ok ident
  | .Parenthesized expr => eval_expression_identifier expr
  | _ => .err (.RuntimeError "Cannot evaluate to an identifier")

/-- Mirrors `Interpreter::eval_statement` on its single-statement worklist:
resolve the left side to an identifier name, evaluate the right side
(converting the evaluation to a value panics on `Void`), and `set` it in
the environment. A `Some(error)` return of the Rust method is `err`; the
success environment is the interpreter's mutated one. -/
def eval_statement (env : Environment) : Statement → RustResult LangError Environment
  | .Assigment identifier value =>
    match eval_expression_identifier identifier with
    | .err e => .err e
    | .panicked => .panicked
    | .ok ident =>
      match eval_expression env value with
      | .err e => .err e
      | .panicked => .panicked
      | .ok evaluation =>
        match evaluation with
        | .Void => .panicked
        | .Bool b =>
          let r := env.set ident (Value.Bool b)
          if r.1 then .ok r.2 else .err (.RuntimeError "Unknown identifier")

end Interpreter

namespace TypeChecker

/-- Mirrors `TypeChecker::check_value`. The Rust method recurses through
the environment's stored value when the value is an identifier, so a cyclic
identifier chain makes it recurse forever (a stack overflow, i.e. an
abort); the embedding spends one fuel per identifier hop and marks fuel
exhaustion `panicked`. Callers pass `env.count + 1` fuel, which a
non-cyclic chain (at most one hop per distinct key) can never exhaust. -/
def check_value (env : Environment) : Nat → Value → RustResult LangError LangType
  | _, .Bool _ => .ok .Logical
  | 0, .Identifier _ => .panicked
  | fuel + 1, .Identifier identifier =>
    match env.get_value identifier with
    | some value => check_value env fuel value
    | none => .err (.TypeCheckingError ("unknown identifier: " ++ identifier))

/-- Mirrors `TypeChecker::check_expression`. The `Binary` and `Unary` arms
unwrap the recursive results with `.ok().unwrap()`, so an operand's type
error aborts the process (`panicked`). -/
def check_expression (env : Environment) : Expression → RustResult LangError LangType
  | .Literal literal => check_value env (env.count + 1) literal
  | .Parenthesized expr => check_expression env expr
  | .Binary lhs op rhs =>
    match check_expression env lhs with
    | .ok lhs_type =>
      match check_expression env rhs with
      | .ok rhs_type =>
        match op with
        | .LogicalAnd | .LogicalOr | .Implication | .BiImplication =>
          if lhs_type == .Logical && rhs_type == .Logical then .ok .Logical
          else
            .err (.TypeCheckingError
              "Cannot perform logical Logical operator for two non logical types")
        | .Equal | .NotEqual =>
          if lhs_type == rhs_type then .ok .Logical
          else .err (.TypeCheckingError "Cannot perform equality on two different types")
      | _ => .panicked
    | _ => .panicked
  | .Unary op expr =>
    match check_expression env expr with
    | .ok expr_type =>
      match op with
      | .Negation =>
        if expr_type != .Logical then
          .err (.TypeCheckingError "Cannot perform logical negation on non-logical type")
        else .ok .Logical
    | _ => .panicked

/-- Mirrors `TypeChecker::check_statement`: an assignment is always `Void`. -/
def check_statement : Statement → RustResult LangError LangType
  | .Assigment _ _ => .ok .Void

end TypeChecker

/-- Mirrors `automatom/channel.rs` `Channel`: an input or output action. -/
inductive Channel where
  | In (name : String)
  | Out (name : String)
deriving DecidableEq

/-- The name of a channel. -/
def Channel.chanName : Channel → String
  | .In name => name
  | .Out name => name

/-- Rust's hand-written `PartialEq for Channel`: two channels are equal
exactly when their names are, whatever their directions. Every modelled
container of channels compares with this, never structurally. -/
def Channel.rustEq (a b : Channel) : Boolean := a.chanName == b.chanName

/-- `HashSet<Channel>::contains`, under the name-only channel equality. -/
def containsChannel (set : List Channel) (channel : Channel) : Bool :=
  set.any (fun c => c.rustEq channel)

/-- `HashSet<Channel>::insert`, under the name-only channel equality:
a channel whose name is already present is not added. -/
def insertChannel (set : List Channel) (channel : Channel) : List Channel :=
  if containsChannel set channel then set else set ++ [channel]

/-- `HashSet::is_disjoint` on channel sets: no element of `inputs` is
contained in `outputs`. -/
def channelsDisjoint (inputs outputs : List Channel) : Bool :=
  inputs.all (fun c => !(containsChannel outputs c))

/-- Mirrors `automatom/guard.rs` `Guard`: wraps an expression. -/
structure Guard where
  node : Expression
deriving DecidableEq

/-- Mirrors `automatom/update.rs` `Update`: wraps an optional statement;
`none` is the no-op update. -/
structure Update where
  node : Option Statement
deriving DecidableEq

/-- Mirrors `automatom/invariant.rs` `Invariant`: wraps an expression. -/
structure Invariant where
  node : Expression
deriving DecidableEq

/-- Mirrors `Invariant::new_true`. -/
def Invariant.new_true : Invariant := ⟨.Literal (.Bool true)⟩

/-- Mirrors `Invariant::new_conjunction` (`automatom/invariant.rs`): panics
unless at least two invariants are given, then left-folds them into nested
`LogicalAnd` binary expressions. The Rust argument is a `HashSet` iterated
in unspecified order; the embedding receives the deduplicated list in
insertion order. -/
def Invariant.new_conjunction (invariants : List Invariant) : RustResult LangError Invariant :=
  if invariants.length < 2 then .panicked
  else
    match invariants with
    | [] => .panicked
    | first :: rest =>
      .ok ⟨rest.foldl (fun lhs rhs => .Binary lhs .LogicalAnd rhs.node) first.node⟩

/-- Mirrors `automatom/location.rs` `Location`: the closed variant set of
automaton locations. Rust derives structural `PartialEq`/`Eq` for it. -/
inductive Location where
  | Normal (name : String) (invariant : Invariant)
  | Initial (name : String) (invariant : Invariant)
  | Conjunction (locations : List Location) (invariant : Invariant)
  | Inconsistent (name : String)
  | Universal (name : String)

mutual

/-- Decidable structural equality of locations, mirroring the derived
`PartialEq for Location` (written by hand because the type nests through
`List`). -/
def Location.decEq : (a b : Location) → Decidable (a = b)
  | .Normal n1 i1, .Normal n2 i2 =>
    if h1 : n1 = n2 then
      if h2 : i1 = i2 then isTrue (by rw [h1, h2])
      else isFalse (fun h => by cases h; exact h2 rfl)
    else isFalse (fun h => by cases h; exact h1 rfl)
  | .Initial n1 i1, .Initial n2 i2 =>
    if h1 : n1 = n2 then
      if h2 : i1 = i2 then isTrue (by rw [h1, h2])
      else isFalse (fun h => by cases h; exact h2 rfl)
    else isFalse (fun h => by cases h; exact h1 rfl)
  | .Conjunction l1 i1, .Conjunction l2 i2 =>
    match Location.decEqList l1 l2 with
    | isTrue h1 =>
      if h2 : i1 = i2 then isTrue (by rw [h1, h2])
      else isFalse (fun h => by cases h; exact h2 rfl)
    | isFalse h1 => isFalse (fun h => by cases h; exact h1 rfl)
  | .Inconsistent n1, .Inconsistent n2 =>
    if h1 : n1 = n2 then isTrue (by rw [h1])
    else isFalse (fun h => by cases h; exact h1 rfl)
  | .Universal n1, .Universal n2 =>
    if h1 : n1 = n2 then isTrue (by rw [h1])
    else isFalse (fun h => by cases h; exact h1 rfl)
  | .Normal _ _, .Initial _ _ => isFalse (fun h => by cases h)
  | .Normal _ _, .Conjunction _ _ => isFalse (fun h => by cases h)
  | .Normal _ _, .Inconsistent _ => isFalse (fun h => by cases h)
  | .Normal _ _, .Universal _ => isFalse (fun h => by cases h)
  | .Initial _ _, .Normal _ _ => isFalse (fun h => by cases h)
  | .Initial _ _, .Conjunction _ _ => isFalse (fun h => by cases h)
  | .Initial _ _, .Inconsistent _ => isFalse (fun h => by cases h)
  | .Initial _ _, .Universal _ => isFalse (fun h => by cases h)
  | .Conjunction _ _, .Normal _ _ => isFalse (fun h => by cases h)
  | .Conjunction _ _, .Initial _ _ => isFalse (fun h => by cases h)
  | .Conjunction _ _, .Inconsistent _ => isFalse (fun h => by cases h)
  | .Conjunction _ _, .Universal _ => isFalse (fun h => by cases h)
  | .Inconsistent _, .Normal _ _ => isFalse (fun h => by cases h)
  | .Inconsistent _, .Initial _ _ => isFalse (fun h => by cases h)
  | .Inconsistent _, .Conjunction _ _ => isFalse (fun h => by cases h)
  | .Inconsistent _, .Universal _ => isFalse (fun h => by cases h)
  | .Universal _, .Normal _ _ => isFalse (fun h => by cases h)
  | .Universal _, .Initial _ _ => isFalse (fun h => by cases h)
  | .Universal _, .Conjunction _ _ => isFalse (fun h => by cases h)
  | .Universal _, .Inconsistent _ => isFalse (fun h => by cases h)
  termination_by structural a => a

/-- Decidable equality of location lists, mutual with `Location.decEq`. -/
def Location.decEqList : (as bs : List Location) → Decidable (as = bs)
  | [], [] => isTrue rfl
  | a :: as, b :: bs =>
    match Location.decEq a b with
    | isTrue h1 =>
      match Location.decEqList as bs with
      | isTrue h2 => isTrue (by rw [h1, h2])
      | isFalse h2 => isFalse (fun h => by cases h; exact h2 rfl)
    | isFalse h1 => isFalse (fun h => by cases h; exact h1 rfl)
  | [], _ :: _ => isFalse (fun h => by cases h)
  | _ :: _, [] => isFalse (fun h => by cases h)
  termination_by structural as => as

end

instance : DecidableEq Location := Location.decEq

/-- The predicate of the first closure in `Location::new_conjunction`:
is the location `Inconsistent`. -/
def Location.isInconsistentLoc : Location → Boolean
  | .Inconsistent _ => true
  | _ => false

/-- The predicate of the second closure in `Location::new_conjunction`:
is the location `Universal`. -/
def Location.isUniversalLoc : Location → Boolean
  | .Universal _ => true
  | _ => false

/-- The filter of `Location::new_conjunction`: keep the non-absorbing
variants (`Normal`, `Initial`, `Conjunction`). -/
def Location.isNonAbsorbing : Location → Boolean
  | .Normal _ _ => true
  | .Initial _ _ => true
  | .Conjunction _ _ => true
  | _ => false

/-- `HashSet<Invariant>::insert` on the deduplicated invariant list
(insertion order, structural invariant equality as Rust derives). -/
def insertInvariant (set : List Invariant) (invariant : Invariant) : List Invariant :=
  if set.contains invariant then set else set ++ [invariant]

/-- The invariant set `Location::new_conjunction` collects from the
filtered locations, in their order. -/
def Location.collectInvariants (locations : List Location) : List Invariant :=
  locations.foldl
    (fun acc l =>
      match l with
      | .Normal _ invariant => insertInvariant acc invariant
      | .Initial _ invariant => insertInvariant acc invariant
      | .Conjunction _ invariant => insertInvariant acc invariant
      | _ => acc)
    []

/-- Mirrors `Location::new_conjunction` (`automatom/location.rs`): any
`Inconsistent` component collapses the product to `Inconsistent`; if every
component is `Universal` (vacuously so for the empty sequence) the product
is `Universal`; otherwise the product keeps the non-absorbing components
and conjoins their (deduplicated) invariants — which panics, through
`Invariant::new_conjunction`, when fewer than two distinct invariants
remain. -/
def Location.new_conjunction (locations : List Location) : RustResult LangError Location :=
  let conjoined_name := "some conjoined name"
  if locations.any Location.isInconsistentLoc then .ok (.Inconsistent conjoined_name)
  else if locations.all Location.isUniversalLoc then .ok (.Universal conjoined_name)
  else
    let filtered_locations := locations.filter Location.isNonAbsorbing
    match Invariant.new_conjunction (Location.collectInvariants filtered_locations) with
    | .ok invariant => .ok (.Conjunction filtered_locations invariant)
    | .err e => .err e
    | .panicked => .panicked

/-- Mirrors `automatom/edge.rs` `Edge`: an immutable edge owning its
endpoints, action, guard and update. -/
structure Edge where
  source : Location
  action : Channel
  guard : Guard
  update : Update
  target : Location
deriving DecidableEq

/-- Mirrors `transition_system/state.rs` `State`: a location paired with
an environment. -/
structure State where
  location : Location
  environment : Environment
deriving DecidableEq

/-- Rust's derived `PartialEq for State`: structural location equality and
order-insensitive map equality of the environments. `Vec::contains` over
states uses this. -/
def State.rustEq (a b : State) : Boolean :=
  decide (a.location = b.location) && a.environment.rustEq b.environment

/-- `Vec<State>::contains`, under `State.rustEq`. -/
def containsState (states : List State) (state : State) : Bool :=
  states.any (fun s => s.rustEq state)

/-- Mirrors `Edge::enabled` (`automatom/edge.rs`): `false` when the edge's
source is not the state's location; otherwise the guard is evaluated in the
state's environment — a returned evaluation error is `false`, a boolean
evaluation is the answer, and a `Void` evaluation hits the `panic!` branch.
A panic inside the evaluation itself (an operand error unwrapped in
`eval_expression`) aborts the caller. -/
def Edge.enabled (edge : Edge) (state : State) : RustResult LangError Bool :=
  if edge.source ≠ state.location then .ok false
  else
    match Interpreter.eval_expression state.environment edge.guard.node with
    | .panicked => .panicked
    | .err _ => .ok false
    | .ok evaluation =>
      match evaluation with
      | .Bool value => .ok value
      | .Void => .panicked

/-- Mirrors `Edge::execute` (`automatom/edge.rs`): with an update, run it
through the interpreter (a failed evaluation hits the `panic!` branch) and
move to the target with the new environment; without one, move to the
target with the unchanged environment. -/
def Edge.execute (edge : Edge) (state : State) : RustResult LangError State :=
  match edge.update.node with
  | some update =>
    match Interpreter.eval_statement state.environment update with
    | .ok env => .ok ⟨edge.target, env⟩
    | _ => .panicked
  | none => .ok ⟨edge.target, state.environment⟩

/-- Mirrors `automatom/error.rs` `Error`: the automaton-construction
error taxonomy. -/
inductive AutomatonError where
  | MissingInitialLocation (automaton : String)
  | EmptyAutomaton (automaton : String)
  | PartitionError (automaton : String) (violating : List Channel)
  | TooManyInitialLocations (automaton : String) (initials : List Location)
  | InconsistentInitialLocation (automaton : String) (location : Location)
  | LocationInvariantMissingIdentifiers (automaton : String) (location : Location)
      (identifiers : List String)
  | MissingIdentifiersInEdgeGuard (automaton : String) (edge : Edge)
      (missing : List String)
  | EdgeGuardIsNotLogical (automaton : String) (edge : Edge) (actual : LangType)
  | MissingIdentifiersInEdgeUpdate (automaton : String) (edge : Edge)
      (missing : List String)
  | MissingIdentifiersInLocationInvariant (automaton : String) (location : Location)
      (missing : List String)
deriving DecidableEq

/-- Mirrors `automatom/automaton.rs` `Automaton`: the validated aggregate.
The Rust hash sets are lists in insertion order. -/
structure Automaton where
  name : String
  locations : List Location
  edges : List Edge
  actions : List Channel
  inputs : List Channel
  outputs : List Channel
  initial : Location
  initial_environment : Environment
deriving DecidableEq

/-- Mirrors the `handle_edge_identifiers` closure of `Automaton::new`:
given the missing identifiers of a node (computed against the current
environment), declare each of them with value `false` when in auto-declare
mode, and report `some missing` when any were missing. -/
def handle_edge_identifiers (declare_variables : Bool) (envir : Environment)
    (missing : List String) : Environment × Option (List String) :=
  let envir :=
    if declare_variables then
      missing.foldl (fun e identifier => (e.insert identifier (Value.Bool false)).2) envir
    else envir
  (envir, if missing.length == 0 then none else some missing)

/-- The running sets of the first edge loop of `Automaton::new`. -/
structure EdgeAcc where
  inputs : List Channel
  outputs : List Channel
  actions : List Channel
  environment : Environment
deriving DecidableEq

/-- One iteration of the first edge loop of `Automaton::new`: record the
edge's action among the actions and the inputs or outputs, check (and in
auto-declare mode declare) the guard's and the update's identifiers, then
type-check the guard — whose `.unwrap()` panics when the check fails, so
`EdgeGuardIsNotLogical` is only reachable through a successful non-`Logical`
check. -/
def Automaton.processEdge (declare_variables : Bool) (name : String) (acc : EdgeAcc)
    (edge : Edge) : RustResult AutomatonError EdgeAcc :=
  let actions := insertChannel acc.actions edge.action
  let inputs :=
    match edge.action with
    | .In _ => insertChannel acc.inputs edge.action
    | .Out _ => acc.inputs
  let outputs :=
    match edge.action with
    | .In _ => acc.outputs
    | .Out _ => insertChannel acc.outputs edge.action
  let guardStep :=
    handle_edge_identifiers declare_variables acc.environment
      (acc.environment.missing_identifiers_in_expression edge.guard.node)
  match guardStep.2, declare_variables with
  | some missing, false => .err (.MissingIdentifiersInEdgeGuard name edge missing)
  | _, _ =>
    let env1 := guardStep.1
    let updateStep :=
      match edge.update.node with
      | some update =>
        handle_edge_identifiers declare_variables env1
          (env1.missing_identifiers_in_statement update)
      | none => (env1, none)
    match updateStep.2, declare_variables with
    | some missing, false => .err (.MissingIdentifiersInEdgeUpdate name edge missing)
    | _, _ =>
      let env2 := updateStep.1
      match TypeChecker.check_expression env2 edge.guard.node with
      | .ok actual =>
        if actual ≠ .Logical then .err (.EdgeGuardIsNotLogical name edge actual)
        else .ok ⟨inputs, outputs, actions, env2⟩
      | _ => .panicked

/-- The first edge loop of `Automaton::new`, folded over the edges. -/
def Automaton.processEdges (declare_variables : Bool) (name : String) :
    EdgeAcc → List Edge → RustResult AutomatonError EdgeAcc
  | acc, [] => .ok acc
  | acc, edge :: rest =>
    match Automaton.processEdge declare_variables name acc edge with
    | .ok acc1 => Automaton.processEdges declare_variables name acc1 rest
    | .err e => .err e
    | .panicked => .panicked

/-- `HashSet<Location>::insert` under structural location equality. -/
def insertLoc (set : List Location) (location : Location) : List Location :=
  if location ∈ set then set else set ++ [location]

/-- The location-collection loop of `Automaton::new`: the sources and
targets of all edges, deduplicated. -/
def collectLocations (edges : List Edge) : List Location :=
  edges.foldl (fun set edge => insertLoc (insertLoc set edge.source) edge.target) []

mutual

/-- Number of locations in a location tree, counting a conjunction and all
its descendants: the exact number of worklist steps the invariant check of
`Automaton::new` spends on it. -/
def locWeight : Location → Nat
  | .Conjunction locations _ => 1 + locListWeight locations
  | _ => 1
  termination_by structural l => l

/-- Total `locWeight` of a list of locations, mutual with `locWeight`. -/
def locListWeight : List Location → Nat
  | [] => 0
  | l :: rest => locWeight l + locListWeight rest
  termination_by structural ls => ls

end

/-- The invariant-checking worklist of `Automaton::new`, which pops from
the back and pushes a conjunction's children to the back; the embedding
processes the reversed worklist from the front, so the caller passes the
collected locations reversed. `Normal` and `Initial` invariants get the
same missing-identifier handling as edges; other variants carry none. Each
step pops one entry and pushes only that entry's children, so `locListWeight`
of the initial worklist bounds the number of steps and the `0` fuel branch
is unreachable. -/
def Automaton.check_invariants (declare_variables : Bool) (name : String) :
    Nat → Environment → List Location → RustResult AutomatonError Environment
  | 0, env, _ => .ok env
  | _, env, [] => .ok env
  | fuel + 1, env, current :: rest =>
    match current with
    | .Normal _ invariant =>
      let step :=
        handle_edge_identifiers declare_variables env
          (env.missing_identifiers_in_expression invariant.node)
      match step.2, declare_variables with
      | some missing, false =>
        .err (.MissingIdentifiersInLocationInvariant name current missing)
      | _, _ => Automaton.check_invariants declare_variables name fuel step.1 rest
    | .Initial _ invariant =>
      let step :=
        handle_edge_identifiers declare_variables env
          (env.missing_identifiers_in_expression invariant.node)
      match step.2, declare_variables with
      | some missing, false =>
        .err (.MissingIdentifiersInLocationInvariant name current missing)
      | _, _ => Automaton.check_invariants declare_variables name fuel step.1 rest
    | .Conjunction locations _ =>
      Automaton.check_invariants declare_variables name fuel env (locations.reverse ++ rest)
    | _ => Automaton.check_invariants declare_variables name fuel env rest

/-- The predicate of the initial-location loop of `Automaton::new`. -/
def Location.isInitialLoc : Location → Boolean
  | .Initial _ _ => true
  | _ => false

/-- The last step of `Automaton::new`: when the unique initial location is
the `Initial` variant (always, here), evaluate its invariant in the final
environment — an evaluation error or a `false` evaluation is an
`InconsistentInitialLocation` — and assemble the automaton. -/
def Automaton.checkInitial (name : String) (env : Environment) (edges : List Edge)
    (locations : List Location) (actions inputs outputs : List Channel)
    (initial : Location) : RustResult AutomatonError Automaton :=
  match initial with
  | .Initial _ invariant =>
    match Interpreter.eval_expression env invariant.node with
    | .panicked => .panicked
    | .err _ => .err (.InconsistentInitialLocation name initial)
    | .ok evaluation =>
      if evaluation.is_false then .err (.InconsistentInitialLocation name initial)
      else .ok ⟨name, locations, edges, actions, inputs, outputs, initial, env⟩
  | _ => .ok ⟨name, locations, edges, actions, inputs, outputs, initial, env⟩

/-- Mirrors `Automaton::new` (`automatom/automaton.rs`): auto-declare mode
when no seed environment is given; the edge loop collecting actions and
checking guards and updates; the locations derived from edge endpoints; the
invariant worklist; the input/output partition check; the emptiness check;
the unique-`Initial` check; and the initial invariant's evaluation. -/
def Automaton.new (name : String) (edges : List Edge) (environment : Option Environment) :
    RustResult AutomatonError Automaton :=
  let declare_variables := environment.isNone
  let initial_environment :=
    match environment with
    | none => Environment.new_empty
    | some e => e
  match Automaton.processEdges declare_variables name ⟨[], [], [], initial_environment⟩ edges with
  | .err e => .err e
  | .panicked => .panicked
  | .ok acc =>
    let locations := collectLocations edges
    match
      Automaton.check_invariants declare_variables name (locListWeight locations + 1)
        acc.environment locations.reverse with
    | .err e => .err e
    | .panicked => .panicked
    | .ok env2 =>
      if !(channelsDisjoint acc.inputs acc.outputs) then
        .err (.PartitionError name (acc.inputs.filter (fun c => containsChannel acc.outputs c)))
      else if locations.length == 0 then .err (.EmptyAutomaton name)
      else
        match locations.filter Location.isInitialLoc with
        | [] => .err (.MissingInitialLocation name)
        | [initial] =>
          Automaton.checkInitial name env2 edges locations acc.actions acc.inputs
            acc.outputs initial
        | initials => .err (.TooManyInitialLocations name initials)

/-- Mirrors `Automaton::get_initial_state` of the `TransitionSystem`
implementation. -/
def Automaton.get_initial_state (A : Automaton) : State :=
  ⟨A.initial, A.initial_environment⟩

/-- Mirrors `Automaton::ingoing_edges`: the edges ending at the location
whose action is in the action set. -/
def Automaton.ingoing_edges (A : Automaton) (location : Location)
    (actions : List Channel) : List Edge :=
  A.edges.filter (fun edge => edge.target == location && containsChannel actions edge.action)

/-- Mirrors `Automaton::precedeeing_locations` (source spelling): the
sources of the ingoing edges. -/
def Automaton.precedeeing_locations (A : Automaton) (location : Location)
    (actions : List Channel) : List Location :=
  (A.ingoing_edges location actions).map (fun edge => edge.source)

/-- Mirrors `Automaton::outgoing_edges`. -/
def Automaton.outgoing_edges (A : Automaton) (location : Location)
    (actions : List Channel) : List Edge :=
  A.edges.filter (fun edge => edge.source == location && containsChannel actions edge.action)

/-- Mirrors `Automaton::sucedeeing_locations` (source spelling). -/
def Automaton.sucedeeing_locations (A : Automaton) (location : Location)
    (actions : List Channel) : List Location :=
  (A.outgoing_edges location actions).map (fun edge => edge.target)

/-- The collection loop of `TransitionSystem::successors` for `Automaton`:
execute every enabled outgoing edge, propagating evaluation panics. -/
def successorsLoop (state : State) : List Edge → RustResult LangError (List State)
  | [] => .ok []
  | edge :: rest =>
    match edge.enabled state with
    | .ok true =>
      match edge.execute state with
      | .ok next =>
        match successorsLoop state rest with
        | .ok states => .ok (next :: states)
        | .err e => .err e
        | .panicked => .panicked
      | .err e => .err e
      | .panicked => .panicked
    | .ok false => successorsLoop state rest
    | .err e => .err e
    | .panicked => .panicked

/-- Mirrors `TransitionSystem::successors` for `Automaton`
(`transition_system/transition_system.rs`). -/
def Automaton.successors (A : Automaton) (state : State) (actions : List Channel) :
    RustResult LangError (List State) :=
  successorsLoop state (A.outgoing_edges state.location actions)

/-- Mirrors `State::enables` (`transition_system/state.rs`). That file is
written against a superseded interpreter API (`Interpreter::eval` returning
a value that may still be an identifier); under the current
`eval_expression` an evaluation is a boolean or `Void`, so the method's
identifier-resolution worklist degenerates: a boolean result answers, the
`.unwrap()` of an evaluation error aborts, and `Void` has no arm. -/
def State.enables (state : State) (edge : Edge) : RustResult LangError Bool :=
  if edge.source ≠ state.location then .ok false
  else
    match Interpreter.eval_expression state.environment edge.guard.node with
    | .ok (.Bool value) => .ok value
    | _ => .panicked

/-- Mirrors `State::enables_any`: whether any of the edges is enabled. -/
def State.enables_any (state : State) : List Edge → RustResult LangError Bool
  | [] => .ok false
  | edge :: rest =>
    match state.enables edge with
    | .ok true => .ok true
    | .ok false => state.enables_any rest
    | .err e => .err e
    | .panicked => .panicked

/-- Mirrors `transition_system/transition_system_breadth_first_search.rs`
`TransitionSystemBreadthFirstSearch`: the search iterator's state over an
automaton transition system. -/
structure TransitionSystemBreadthFirstSearch where
  transition_system : Automaton
  actions : List Channel
  visited : List State
  frontier : List State
deriving DecidableEq

/-- Mirrors `TransitionSystemBreadthFirstSearch::new`. -/
def TransitionSystemBreadthFirstSearch.new (actions : List Channel)
    (transition_system : Automaton) : TransitionSystemBreadthFirstSearch :=
  ⟨transition_system, actions, [], []⟩

/-- Mirrors `TransitionSystemBreadthFirstSearch::next` (`Iterator::next`):
seed the frontier with the initial state on the first invocation, answer
`None` when the frontier is empty, otherwise pop the back of the frontier,
push its unseen successors — and then, as written, fall through to `None`
without yielding the popped state or recording it as visited. -/
def TransitionSystemBreadthFirstSearch.next (it : TransitionSystemBreadthFirstSearch) :
    RustResult LangError (Option State × TransitionSystemBreadthFirstSearch) :=
  let it :=
    if it.visited.isEmpty && it.frontier.isEmpty then
      { it with frontier := it.frontier ++ [it.transition_system.get_initial_state] }
    else it
  match it.frontier.getLast? with
  | none => .ok (none, it)
  | some state =>
    let popped := it.frontier.dropLast
    match it.transition_system.successors state it.actions with
    | .err e => .err e
    | .panicked => .panicked
    | .ok nexts =>
      let frontier :=
        nexts.foldl
          (fun fr next =>
            if !(containsState it.visited next) && !(containsState fr next) then
              fr ++ [next]
            else fr)
          popped
      .ok (none, { it with frontier := frontier })

/-- A `for` loop over the iterator, collecting the yielded states until the
first `None`: the meaning of `.collect()` and of the `for current in …`
loop in `predecessors`. The fuel bounds the number of loop iterations a
caller gives the (in general unbounded) iteration. -/
def TransitionSystemBreadthFirstSearch.collect :
    Nat → TransitionSystemBreadthFirstSearch → RustResult LangError (List State)
  | 0, _ => .ok []
  | fuel + 1, it =>
    match it.next with
    | .ok (none, _) => .ok []
    | .ok (some state, it1) =>
      match TransitionSystemBreadthFirstSearch.collect fuel it1 with
      | .ok states => .ok (state :: states)
      | .err e => .err e
      | .panicked => .panicked
    | .err e => .err e
    | .panicked => .panicked

/-- The final filter loop of `predecessors`: keep the states that enable
at least one of the connecting edges. -/
def filterEnablesAny : List State → List Edge → RustResult LangError (List State)
  | [], _ => .ok []
  | state :: rest, edges =>
    match state.enables_any edges with
    | .ok true =>
      match filterEnablesAny rest edges with
      | .ok states => .ok (state :: states)
      | .err e => .err e
      | .panicked => .panicked
    | .ok false => filterEnablesAny rest edges
    | .err e => .err e
    | .panicked => .panicked

/-- Mirrors `TransitionSystem::predecessors` for `Automaton`
(`transition_system/transition_system.rs`): collect the reachable states
discovered by a fresh search iterator, keep those lying in a structurally
preceding location, and keep those that enable an ingoing edge of the
target location. `fuel` bounds the iterator loop. -/
def Automaton.predecessors (A : Automaton) (fuel : Nat) (state : State)
    (actions : List Channel) : RustResult LangError (List State) :=
  let precedeeing := A.precedeeing_locations state.location actions
  match (TransitionSystemBreadthFirstSearch.new actions A).collect fuel with
  | .err e => .err e
  | .panicked => .panicked
  | .ok reachable =>
    let states_in_preceding_locations :=
      reachable.filter (fun current => precedeeing.contains current.location)
    filterEnablesAny states_in_preceding_locations (A.ingoing_edges state.location actions)

/-! Concrete material: the chain automaton of the spec's scenario —
locations `a` (initial), `b`, `c`, edges `a → b → c` on input action `x`
with guard `true` and no update — together with edges whose guards fail to
evaluate, used as failing inputs below. -/

/-- The trivially true guard (`Guard::new_true`). -/
def guardTrue : Guard := ⟨.Literal (.Bool true)⟩

/-- The empty update (`Update::new_pure`). -/
def updateNone : Update := ⟨none⟩

/-- Location `a`, the chain's initial location. -/
def locationA : Location := .Initial "a" Invariant.new_true

/-- Location `b` of the chain. -/
def locationB : Location := .Normal "b" Invariant.new_true

/-- Location `c` of the chain. -/
def locationC : Location := .Normal "c" Invariant.new_true

/-- The input channel `x?`. -/
def channelX : Channel := .In "x"

/-- The edge `a -(x?, true, no-op)-> b`. -/
def edgeAB : Edge := ⟨locationA, channelX, guardTrue, updateNone, locationB⟩

/-- The edge `b -(x?, true, no-op)-> c`. -/
def edgeBC : Edge := ⟨locationB, channelX, guardTrue, updateNone, locationC⟩

/-- The chain automaton's edge set. -/
def chainEdges : List Edge := [edgeAB, edgeBC]

/-- The value `Automaton::new` constructs from `chainEdges` in auto-declare
mode. -/
def chainAutomaton : Automaton :=
  ⟨"chain", [locationA, locationB, locationC], chainEdges, [channelX], [channelX], [],
    locationA, Environment.new_empty⟩

/-- The state at the chain's initial location `a`. -/
def stateAtA : State := ⟨locationA, Environment.new_empty⟩

/-- The reachable state at the chain's location `b` (the chain's edges
carry no update, so its environment is the initial one). -/
def stateAtB : State := ⟨locationB, Environment.new_empty⟩

/-- The reachable state at the chain's location `c`. -/
def stateAtC : State := ⟨locationC, Environment.new_empty⟩

/-- A guard that is a compound expression whose left operand is an
undeclared identifier: its evaluation error arises inside a `Binary`
operand. -/
def guardUnknownCompound : Guard :=
  ⟨.Binary (.Literal (.Identifier "undeclared")) .LogicalAnd (.Literal (.Bool true))⟩

/-- A guard that is a bare undeclared identifier: its evaluation error
arises at the top level of the expression. -/
def guardUnknownPlain : Guard := ⟨.Literal (.Identifier "undeclared")⟩

/-- An edge from `a` guarded by the compound failing guard. -/
def edgeCompoundGuard : Edge := ⟨locationA, channelX, guardUnknownCompound, updateNone, locationB⟩

/-- An edge from `a` guarded by the bare failing guard. -/
def edgePlainGuard : Edge := ⟨locationA, channelX, guardUnknownPlain, updateNone, locationB⟩

/-- Mirrors `Expression::new_boolean`. -/
def Expression.new_boolean (value : Boolean) : Expression := .Literal (.Bool value)

/-- Mirrors `Expression::new_binary_expression`. -/
def Expression.new_binary_expression (lhs : Expression) (op : BinaryOperator)
    (rhs : Expression) : Expression := .Binary lhs op rhs

/-- The specification-side fold of `Invariant::new_conjunction` without its
minimum-arity panic: left-fold the invariants into nested `LogicalAnd`
expressions (the empty case is never used below). -/
def conjoinInvariants : List Invariant → Invariant
  | [] => Invariant.new_true
  | first :: rest => ⟨rest.foldl (fun lhs rhs => .Binary lhs .LogicalAnd rhs.node) first.node⟩

/-- Whether an evaluation result is a successful `Void`. -/
def isOkVoid : RustResult LangError Evaluation → Boolean
  | .ok .Void => true
  | _ => false

/-- Whether an iterator step yielded a state (`Some(state)` from `next`). -/
def yieldsState :
    RustResult LangError (Option State × TransitionSystemBreadthFirstSearch) → Boolean
  | .ok (some _, _) => true
  | _ => false

/-- Whether a state-list computation returned a non-empty list. -/
def returnsNonemptyList : RustResult LangError (List State) → Boolean
  | .ok (_ :: _) => true
  | _ => false

/-! Helper lemmas shared by the claim theorems. -/

/-- Every call to the search iterator's `next` falls through to `None`
(or aborts): no code path yields a state. -/
theorem next_yields_none (it : TransitionSystemBreadthFirstSearch) :
    yieldsState it.next = false := by
  simp only [TransitionSystemBreadthFirstSearch.next]
  split
  · rfl
  · split <;> rfl

/-- The iterator loop therefore collects nothing: every run is the empty
list, an error, or an abort. -/
theorem collect_shape (fuel : Nat) (it : TransitionSystemBreadthFirstSearch) :
    TransitionSystemBreadthFirstSearch.collect fuel it = .ok [] ∨
      (∃ e, TransitionSystemBreadthFirstSearch.collect fuel it = .err e) ∨
      TransitionSystemBreadthFirstSearch.collect fuel it = .panicked := by
  cases fuel with
  | zero => exact Or.inl rfl
  | succ n =>
    have hy := next_yields_none it
    cases h : it.next with
    | ok p =>
      obtain ⟨o, it2⟩ := p
      cases o with
      | none => exact Or.inl (by simp [TransitionSystemBreadthFirstSearch.collect, h])
      | some s => rw [h] at hy; simp [yieldsState] at hy
    | err e =>
      exact Or.inr (Or.inl ⟨e, by simp [TransitionSystemBreadthFirstSearch.collect, h]⟩)
    | panicked =>
      exact Or.inr (Or.inr (by simp [TransitionSystemBreadthFirstSearch.collect, h]))

/-- `predecessors` can therefore never return a predecessor, for any
automaton, fuel, state and action set. -/
theorem predecessors_never_nonempty (A : Automaton) (fuel : Nat) (state : State)
    (actions : List Channel) :
    returnsNonemptyList (A.predecessors fuel state actions) = false := by
  rcases collect_shape fuel (TransitionSystemBreadthFirstSearch.new actions A) with
    h | ⟨e, h⟩ | h <;>
    simp [Automaton.predecessors, h, filterEnablesAny, returnsNonemptyList]

/-! The claim theorems. -/

/-- C1: the state-space search enumerator is claimed to yield every state
reachable under the action subset exactly once, one newly discovered state
per `next` call, and never to answer `None` while unvisited frontier
entries remain. The code does the opposite: no call of `next` ever yields
a state, and on the chain automaton the first call answers `None` while it
leaves the newly discovered (never yielded, never visited) state at `b` in
the frontier, so the enumerator collects the empty sequence although three
states are reachable. -/
theorem bfs_next_never_yields_and_strands_frontier :
    (∀ it : TransitionSystemBreadthFirstSearch, yieldsState it.next = false) ∧
      (TransitionSystemBreadthFirstSearch.new [channelX] chainAutomaton).next =
        .ok (none, ⟨chainAutomaton, [channelX], [], [stateAtB]⟩) ∧
      ∀ fuel, TransitionSystemBreadthFirstSearch.collect fuel
        (TransitionSystemBreadthFirstSearch.new [channelX] chainAutomaton) = .ok [] := by
  refine ⟨next_yields_none, rfl, ?_⟩
  intro fuel
  cases fuel <;> rfl

/-- C2: `predecessors` is claimed to return, for the chain automaton
`a → b → c` on input `x`, exactly the reachable state at `b` for the state
at `c`, and exactly the state at `a` for the state at `b`. Because it
enumerates the reachable states with the search iterator — which yields
nothing — it returns the empty list there, and indeed, as the first
conjunct states, it can never return a predecessor for any automaton at
all. -/
theorem predecessors_always_empty_on_chain :
    (∀ (A : Automaton) (fuel : Nat) (state : State) (actions : List Channel),
        returnsNonemptyList (A.predecessors fuel state actions) = false) ∧
      ∀ fuel, chainAutomaton.predecessors fuel stateAtC [channelX] = .ok [] ∧
        chainAutomaton.predecessors fuel stateAtB [channelX] = .ok [] := by
  refine ⟨predecessors_never_nonempty, ?_⟩
  intro fuel
  cases fuel <;> exact ⟨rfl, rfl⟩

/-- C3: `Edge::enabled` is claimed total — `false` on a source mismatch
regardless of the guard, `false` whenever guard evaluation fails
(including a failure inside a compound expression), `true` exactly on a
successful `true` evaluation. The source-mismatch part and the top-level
failure part hold, but an undeclared identifier inside a `Binary` operand
is unwrapped with `.ok().unwrap()` inside `eval_expression`, so the guard
evaluation panics and aborts the caller instead of answering `false`. -/
theorem enabled_panics_on_compound_guard_failure :
    Edge.enabled edgeCompoundGuard stateAtA = .panicked ∧
      Edge.enabled edgePlainGuard stateAtA = .ok false ∧
      Edge.enabled edgeCompoundGuard stateAtB = .ok false := by
  exact ⟨rfl, rfl, rfl⟩

/-- C4: evaluating `Unary(Negation, e)` is claimed to yield the logical
negation of `e`'s boolean value. The `Negation` arm of
`eval_expression` rebuilds `Value::Bool(expr_bool)` from the operand's
boolean unchanged, so for every environment and every boolean literal the
"negation" evaluates to the operand itself. -/
theorem negation_evaluates_to_operand (env : Environment) (b : Bool) :
    Interpreter.eval_expression env (.Unary .Negation (.Literal (.Bool b))) =
      .ok (.Bool b) := by
  cases b <;> rfl

/-- C8: for `LogicalAnd`, `LogicalOr` and `BiImplication` over boolean
literals, evaluation is commutative and associative in every environment
and for every assignment of the literals. -/
theorem eval_commutative_associative (env : Environment) (a b c : Bool) :
    (Interpreter.eval_expression env
        (Expression.new_binary_expression (Expression.new_boolean a) .LogicalAnd
          (Expression.new_boolean b)) =
      Interpreter.eval_expression env
        (Expression.new_binary_expression (Expression.new_boolean b) .LogicalAnd
          (Expression.new_boolean a))) ∧
    (Interpreter.eval_expression env
        (Expression.new_binary_expression (Expression.new_boolean a) .LogicalOr
          (Expression.new_boolean b)) =
      Interpreter.eval_expression env
        (Expression.new_binary_expression (Expression.new_boolean b) .LogicalOr
          (Expression.new_boolean a))) ∧
    (Interpreter.eval_expression env
        (Expression.new_binary_expression (Expression.new_boolean a) .BiImplication
          (Expression.new_boolean b)) =
      Interpreter.eval_expression env
        (Expression.new_binary_expression (Expression.new_boolean b) .BiImplication
          (Expression.new_boolean a))) ∧
    (Interpreter.eval_expression env
        (Expression.new_binary_expression (Expression.new_boolean a) .LogicalAnd
          (Expression.new_binary_expression (Expression.new_boolean b) .LogicalAnd
            (Expression.new_boolean c))) =
      Interpreter.eval_expression env
        (Expression.new_binary_expression
          (Expression.new_binary_expression (Expression.new_boolean a) .LogicalAnd
            (Expression.new_boolean b)) .LogicalAnd (Expression.new_boolean c))) ∧
    (Interpreter.eval_expression env
        (Expression.new_binary_expression (Expression.new_boolean a) .LogicalOr
          (Expression.new_binary_expression (Expression.new_boolean b) .LogicalOr
            (Expression.new_boolean c))) =
      Interpreter.eval_expression env
        (Expression.new_binary_expression
          (Expression.new_binary_expression (Expression.new_boolean a) .LogicalOr
            (Expression.new_boolean b)) .LogicalOr (Expression.new_boolean c))) ∧
    (Interpreter.eval_expression env
        (Expression.new_binary_expression (Expression.new_boolean a) .BiImplication
          (Expression.new_binary_expression (Expression.new_boolean b) .BiImplication
            (Expression.new_boolean c))) =
      Interpreter.eval_expression env
        (Expression.new_binary_expression
          (Expression.new_binary_expression (Expression.new_boolean a) .BiImplication
            (Expression.new_boolean b)) .BiImplication (Expression.new_boolean c))) := by
  cases a <;> cases b <;> cases c <;> exact ⟨rfl, rfl, rfl, rfl, rfl, rfl⟩

/-- C10: `Location::new_conjunction` on the empty component sequence
returns a `Universal` location — the all-components-`Universal` check is
vacuously true on the empty sequence — although the documentation says a
product location is built from at least one component. -/
theorem location_new_conjunction_empty_is_universal :
    Location.new_conjunction [] = .ok (.Universal "some conjoined name") := by
  rfl

/-- C7: every failing `Environment` mutator is a no-op on the mapping:
`insert` of an existing key returns `false` and leaves the binding
unchanged, `set` of an absent key returns `false` and adds no binding, and
`concat` with a non-disjoint environment returns `false` and leaves the
receiver untouched. -/
theorem environment_failing_mutators_are_noops
    (e1 : Environment) (k1 : String) (v1 : Value) (h1 : e1.contains k1 = true)
    (e2 : Environment) (k2 : String) (v2 : Value) (h2 : e2.contains k2 = false)
    (e3 e4 : Environment) (h3 : e3.is_disjoint e4 = false) :
    e1.insert k1 v1 = (false, e1) ∧ e2.set k2 v2 = (false, e2) ∧
      e3.concat e4 = (false, e3) := by
  refine ⟨?_, ?_, ?_⟩
  · simp [Environment.insert, h1]
  · simp [Environment.set, h2]
  · simp [Environment.concat, h3]

/-- Witness for C7: a concrete duplicate insert, an update of an absent
key, and a concatenation of two environments sharing the key `a`. -/
theorem environment_failing_mutators_are_noops_witness :
    (⟨[("a", Value.Bool true)]⟩ : Environment).insert "a" (Value.Bool false) =
        (false, ⟨[("a", Value.Bool true)]⟩) ∧
      (⟨[("a", Value.Bool true)]⟩ : Environment).set "b" (Value.Bool false) =
        (false, ⟨[("a", Value.Bool true)]⟩) ∧
      (⟨[("a", Value.Bool true)]⟩ : Environment).concat ⟨[("a", Value.Bool false)]⟩ =
        (false, ⟨[("a", Value.Bool true)]⟩) :=
  environment_failing_mutators_are_noops
    ⟨[("a", Value.Bool true)]⟩ "a" (Value.Bool false) rfl
    ⟨[("a", Value.Bool true)]⟩ "b" (Value.Bool false) rfl
    ⟨[("a", Value.Bool true)]⟩ ⟨[("a", Value.Bool false)]⟩ rfl

/-- The worklist of `eval_expression` always leaves exactly one value on
the stack, unless the evaluation errs or panics: each arm of the loop
pushes exactly one value for the single worklist entry. -/
theorem evalLoop_shape (env : Environment) (e : Expression) :
    (∃ v, Interpreter.evalLoop env e = .ok [v]) ∨
      (∃ err, Interpreter.evalLoop env e = .err err) ∨
      Interpreter.evalLoop env e = .panicked := by
  induction e with
  | Literal v =>
    cases v with
    | Bool b => exact Or.inl ⟨.Bool b, rfl⟩
    | Identifier ident =>
      cases h : env.get_value ident with
      | some val => exact Or.inl ⟨val, by simp [Interpreter.evalLoop, h]⟩
      | none =>
        exact Or.inr (Or.inl ⟨.RuntimeError "Unknown identifier",
          by simp [Interpreter.evalLoop, h]⟩)
  | Parenthesized e ih => simpa [Interpreter.evalLoop] using ih
  | Binary lhs op rhs ihl ihr =>
    unfold Interpreter.evalLoop
    cases hl : Interpreter.finishEval (Interpreter.evalLoop env lhs) with
    | ok ev1 =>
      cases hr : Interpreter.finishEval (Interpreter.evalLoop env rhs) with
      | ok ev2 =>
        cases ev1 with
        | Bool b1 =>
          cases ev2 with
          | Bool b2 => cases op <;> exact Or.inl ⟨_, rfl⟩
          | Void => exact Or.inr (Or.inr rfl)
        | Void => exact Or.inr (Or.inr rfl)
      | err e2 => exact Or.inr (Or.inr rfl)
      | panicked => exact Or.inr (Or.inr rfl)
    | err e1 => exact Or.inr (Or.inr rfl)
    | panicked => exact Or.inr (Or.inr rfl)
  | Unary op expr ih =>
    unfold Interpreter.evalLoop
    cases hu : Interpreter.finishEval (Interpreter.evalLoop env expr) with
    | ok ev =>
      cases ev with
      | Bool b => cases op; exact Or.inl ⟨_, rfl⟩
      | Void => cases op; exact Or.inr (Or.inr rfl)
    | err e1 => exact Or.inr (Or.inr rfl)
    | panicked => exact Or.inr (Or.inr rfl)

/-- A successful expression evaluation is never `Void`: the final stack
holds exactly one value, and the empty-stack arm that returns `Void` is
unreachable. -/
theorem isOkVoid_eval (env : Environment) (e : Expression) :
    isOkVoid (Interpreter.eval_expression env e) = false := by
  rcases evalLoop_shape env e with ⟨v, h⟩ | ⟨err, h⟩ | h
  · unfold Interpreter.eval_expression
    rw [h]
    cases v <;> rfl
  · unfold Interpreter.eval_expression
    rw [h]
    rfl
  · unfold Interpreter.eval_expression
    rw [h]
    rfl

/-- C9: for every expression and environment, `eval_expression` never
returns `Ok(Evaluation::Void)`; consequently the `panic!` arm of
`Edge::enabled` that handles a `Void` guard evaluation is unreachable —
whenever `enabled` aborts, the abort arose inside the guard evaluation
itself, never from that arm. -/
theorem eval_expression_never_void (env : Environment) (e : Expression)
    (edge : Edge) (state : State) :
    isOkVoid (Interpreter.eval_expression env e) = false ∧
      (Edge.enabled edge state = .panicked →
        Interpreter.eval_expression state.environment edge.guard.node = .panicked) := by
  refine ⟨isOkVoid_eval env e, ?_⟩
  intro hpan
  unfold Edge.enabled at hpan
  split at hpan
  · exact RustResult.noConfusion hpan
  · cases heval : Interpreter.eval_expression state.environment edge.guard.node with
    | panicked => rfl
    | err e2 => rw [heval] at hpan; exact RustResult.noConfusion hpan
    | ok ev =>
      rw [heval] at hpan
      cases ev with
      | Bool b => exact RustResult.noConfusion hpan
      | Void =>
        have hv := isOkVoid_eval state.environment edge.guard.node
        rw [heval] at hv
        exact absurd hv (by simp [isOkVoid])

/-- C6 counterexample: a singleton non-absorbing component. The claim says
the product of `[Normal "a" (invariant true)]` is a `Conjunction` keeping
that component; the code panics, because the collected invariant set has
fewer than the two elements `Invariant::new_conjunction` requires. -/
theorem location_new_conjunction_single_normal_panics :
    Location.new_conjunction [Location.Normal "a" Invariant.new_true] = .panicked := by
  rfl

/-- C6 (amended): the product algebra holds with a proviso on the
otherwise-branch. Any `Inconsistent` component gives `Inconsistent`; all
components `Universal` gives `Universal`; otherwise — provided the
non-absorbing components carry at least two distinct invariants — the
product is the `Conjunction` of exactly the non-absorbing components whose
invariant is the left `LogicalAnd` fold of their distinct invariants (with
fewer than two distinct invariants the constructor panics instead). -/
theorem location_new_conjunction_absorbing_algebra (locations : List Location)
    (h : locations.any Location.isInconsistentLoc = true ∨
      locations.all Location.isUniversalLoc = true ∨
      2 ≤ (Location.collectInvariants (locations.filter Location.isNonAbsorbing)).length) :
    Location.new_conjunction locations =
      .ok (if locations.any Location.isInconsistentLoc then
          Location.Inconsistent "some conjoined name"
        else if locations.all Location.isUniversalLoc then
          Location.Universal "some conjoined name"
        else
          Location.Conjunction (locations.filter Location.isNonAbsorbing)
            (conjoinInvariants
              (Location.collectInvariants (locations.filter Location.isNonAbsorbing)))) := by
  by_cases h1 : locations.any Location.isInconsistentLoc = true
  · simp [Location.new_conjunction, h1]
  · by_cases h2 : locations.all Location.isUniversalLoc = true
    · simp [Location.new_conjunction, h1, h2]
    · have h3 : 2 ≤
          (Location.collectInvariants (locations.filter Location.isNonAbsorbing)).length := by
        rcases h with h | h | h
        · exact absurd h h1
        · exact absurd h h2
        · exact h
      simp only [Location.new_conjunction, h1, h2, if_false]
      unfold Invariant.new_conjunction
      cases hl : Location.collectInvariants (locations.filter Location.isNonAbsorbing) with
      | nil => rw [hl] at h3; simp at h3
      | cons first rest =>
        rw [hl] at h3
        simp only [List.length_cons] at h3 ⊢
        have hne : ¬(rest.length + 1 < 2) := by omega
        rw [if_neg hne]
        simp [conjoinInvariants]

/-- Witness for C6: two `Normal` components with distinct invariants
(`true` and `false`): the product keeps both components and conjoins the
two invariants. -/
theorem location_new_conjunction_absorbing_algebra_witness :
    Location.new_conjunction
        [Location.Normal "p" ⟨.Literal (.Bool true)⟩,
          Location.Normal "q" ⟨.Literal (.Bool false)⟩] =
      .ok (Location.Conjunction
        [Location.Normal "p" ⟨.Literal (.Bool true)⟩,
          Location.Normal "q" ⟨.Literal (.Bool false)⟩]
        ⟨.Binary (.Literal (.Bool true)) .LogicalAnd (.Literal (.Bool false))⟩) :=
  location_new_conjunction_absorbing_algebra _ (Or.inr (Or.inr (by decide)))

/-- Membership in a hash-set insertion: the old members plus the inserted
location. -/
theorem mem_insertLoc (set : List Location) (x loc : Location) :
    loc ∈ insertLoc set x ↔ loc ∈ set ∨ loc = x := by
  unfold insertLoc
  split
  · rename_i hx
    constructor
    · exact Or.inl
    · rintro (hm | rfl)
      · exact hm
      · exact hx
  · simp [List.mem_append]

/-- The locations collected by `Automaton::new` are exactly the edge
endpoints. -/
theorem mem_collectLocations (edges : List Edge) (loc : Location) :
    loc ∈ collectLocations edges ↔ ∃ e ∈ edges, loc = e.source ∨ loc = e.target := by
  suffices hgen : ∀ acc : List Location,
      loc ∈ edges.foldl (fun set edge => insertLoc (insertLoc set edge.source) edge.target) acc ↔
        loc ∈ acc ∨ ∃ e ∈ edges, loc = e.source ∨ loc = e.target by
    simpa [collectLocations] using hgen []
  induction edges with
  | nil => intro acc; simp
  | cons e rest ih =>
    intro acc
    simp only [List.foldl_cons, List.mem_cons]
    rw [ih]
    simp only [mem_insertLoc]
    constructor
    · rintro (((hm | hs) | ht) | ⟨e1, he1, hor⟩)
      · exact Or.inl hm
      · exact Or.inr ⟨e, Or.inl rfl, Or.inl hs⟩
      · exact Or.inr ⟨e, Or.inl rfl, Or.inr ht⟩
      · exact Or.inr ⟨e1, Or.inr he1, hor⟩
    · rintro (hm | ⟨e1, (rfl | he1), hor⟩)
      · exact Or.inl (Or.inl (Or.inl hm))
      · rcases hor with hs | ht
        · exact Or.inl (Or.inl (Or.inr hs))
        · exact Or.inl (Or.inr ht)
      · exact Or.inr ⟨e1, he1, hor⟩

/-- On success, the last step of `Automaton::new` returns exactly the
record of the collected fields. -/
theorem checkInitial_ok (name : String) (env : Environment) (edges : List Edge)
    (locations : List Location) (actions inputs outputs : List Channel)
    (initial : Location) (A : Automaton)
    (h : Automaton.checkInitial name env edges locations actions inputs outputs initial =
      .ok A) :
    A = ⟨name, locations, edges, actions, inputs, outputs, initial, env⟩ := by
  unfold Automaton.checkInitial at h
  split at h
  · split at h
    · exact RustResult.noConfusion h
    · exact RustResult.noConfusion h
    · split at h
      · exact RustResult.noConfusion h
      · exact (RustResult.ok.inj h).symm
  · exact (RustResult.ok.inj h).symm

/-- C5: for every automaton value the validating constructor returns, the
input and output channel sets are disjoint (under the name-only channel
equality the code's partition check uses) and the location set is exactly
the set of edge endpoints; the value is immutable — every further
operation is a pure query — so these hold for its whole lifetime. -/
theorem automaton_new_invariants (name : String) (edges : List Edge)
    (environment : Option Environment) (A : Automaton)
    (h : Automaton.new name edges environment = .ok A) :
    channelsDisjoint A.inputs A.outputs = true ∧ A.edges = edges ∧
      ∀ loc : Location, loc ∈ A.locations ↔ ∃ e ∈ edges, loc = e.source ∨ loc = e.target := by
  simp only [Automaton.new] at h
  split at h
  · exact RustResult.noConfusion h
  · exact RustResult.noConfusion h
  · split at h
    · exact RustResult.noConfusion h
    · exact RustResult.noConfusion h
    · split at h
      · exact RustResult.noConfusion h
      · rename_i hdisj
        split at h
        · exact RustResult.noConfusion h
        · split at h
          · exact RustResult.noConfusion h
          · have hA := checkInitial_ok _ _ _ _ _ _ _ _ _ h
            subst hA
            refine ⟨?_, rfl, fun loc => mem_collectLocations edges loc⟩
            simpa using hdisj
          · exact RustResult.noConfusion h

/-- Witness for C5: the chain automaton, whose construction succeeds with
disjoint inputs and outputs and with locations `a`, `b`, `c` — the
endpoints of its two edges. -/
theorem automaton_new_invariants_witness :
    channelsDisjoint chainAutomaton.inputs chainAutomaton.outputs = true ∧
      chainAutomaton.edges = chainEdges ∧
      ∀ loc : Location, loc ∈ chainAutomaton.locations ↔
        ∃ e ∈ chainEdges, loc = e.source ∨ loc = e.target :=
  automaton_new_invariants "chain" chainEdges none chainAutomaton rfl

end Perfdar
